import Mathlib

/-!
Verification of the session log interpretation and aggregation engine of the
agent observability dashboard (src/server.js).  The definitions below are a
shallow embedding of the JavaScript code: JSON event records become Lean
structures whose fields are Options (absent field = none), JS number fields
become Int (token counts) or Rat (costs), and the per-request handlers become
pure functions over an explicit list-of-files model of the log directory.
-/

namespace Dashboard

/-! ### String helpers (JS String.prototype methods over character lists) -/

/-- Test whether the second list is a prefix of the first, by character equality. -/
def startsWithAux : List Char → List Char → Bool
  | _, [] => true
  | [], _ :: _ => false
  | c :: cs, d :: ds => c == d && startsWithAux cs ds

/-- Embedding of the JS startsWith method. -/
def strStartsWith (s p : String) : Bool := startsWithAux s.data p.data

/-- Embedding of the JS endsWith method. -/
def strEndsWith (s p : String) : Bool := startsWithAux s.data.reverse p.data.reverse

/-- Auxiliary scan for substring containment: does p occur in the list? -/
def strContainsAux (p : List Char) : List Char → Bool
  | [] => startsWithAux [] p
  | c :: t => startsWithAux (c :: t) p || strContainsAux p t

/-- Embedding of the JS includes method (substring containment). -/
def strContains (s p : String) : Bool := strContainsAux p.data s.data

/-- JS truthiness of an optional string: present and non-empty. -/
def truthyS : Option String → Bool
  | some s => !(s == "")
  | none => false

/-- Whitespace characters recognized by the JS regex class backslash-s and by trim. -/
def jsWsChar (c : Char) : Bool :=
  c == ' ' || c == '\t' || c == '\n' || c == '\r' || c == '\x0b' || c == '\x0c'

/-- Embedding of the JS trim method (strip whitespace from both ends). -/
def trimStr (s : String) : String :=
  String.mk (((s.data.dropWhile jsWsChar).reverse.dropWhile jsWsChar).reverse)

/-! ### Event data model

One decoded JSON record from a session log line.  Only the fields the server
reads are modelled; every field is optional because the records are
loosely typed. -/

/-- Nested cost object inside a usage record (usage.cost). -/
structure Cost where
  total : Option Rat
deriving DecidableEq

/-- Usage record of a message (message.usage). -/
structure Usage where
  totalTokens : Option Int
  cost : Option Cost
deriving DecidableEq

/-- One element of the content array of a message (message.content[i]). -/
structure ContentItem where
  text : Option String
deriving DecidableEq

/-- Nested message payload of a message event (line.message). -/
structure Message where
  usage : Option Usage
  model : Option String
  stopReason : Option String
  content : Option (List ContentItem)
deriving DecidableEq

/-- Data payload of a custom event (line.data). -/
structure CustomData where
  label : Option String
  modelId : Option String
deriving DecidableEq

/-- One decoded log line. -/
structure Event where
  type : Option String
  id : Option String
  message : Option Message
  data : Option CustomData
  customType : Option String
deriving DecidableEq

/-- The Session Summary produced by parseSessionFile.  Timestamps are carried
as integer milliseconds (the code renders them as ISO strings, a bijective
rendering irrelevant to the logic). -/
structure Summary where
  sessionId : String
  sessionKey : String
  label : String
  model : String
  totalTokens : Int
  totalCost : Rat
  status : String
  messageCount : Nat
  lastUpdated : Int
  createdAt : Int
  filePath : String
  isDeleted : Bool
deriving DecidableEq

/-! ### Session identity -/

/-- Character class of the session id pattern: [a-f0-9-]. -/
def isIdChar (c : Char) : Bool :=
  ('a' ≤ c && c ≤ 'f') || ('0' ≤ c && c ≤ '9') || c == '-'

/-- Embedding of extractSessionId: match ^([a-f0-9-]+)\.jsonl at the start of
the filename; on success return the captured group, otherwise the filename.
Because the dot is not in the character class, the regex match is exactly the
maximal run of class characters followed immediately by the text .jsonl. -/
def extractSessionId (filename : String) : String :=
  let run := filename.data.takeWhile isIdChar
  if !run.isEmpty && startsWithAux (filename.data.drop run.length) (".jsonl".data) then
    String.mk run
  else filename

/-! ### Message accumulation pass -/

/-- Accumulator of the per-message loop in parseSessionFile. -/
structure MsgAcc where
  totalTokens : Int
  totalCost : Rat
  model : String
  lastStatus : String
deriving DecidableEq

/-- Initial accumulator values of the loop. -/
def initAcc : MsgAcc :=
  { totalTokens := 0, totalCost := 0, model := "unknown", lastStatus := "idle" }

/-- Body of the for-loop over messagelines: add token and cost contributions,
update model and lastStatus with last-write-wins, mirroring the JS truthiness
tests (a zero cost total, empty model or empty stopReason is falsy). -/
def msgStep (acc : MsgAcc) (l : Event) : MsgAcc :=
  match l.message with
  | none => acc
  | some msg =>
    let tt := match msg.usage with
      | some u => acc.totalTokens + (u.totalTokens.getD 0)
      | none => acc.totalTokens
    let tc := match msg.usage with
      | some u =>
        match u.cost with
        | some c =>
          match c.total with
          | some v => if v ≠ 0 then acc.totalCost + v else acc.totalCost
          | none => acc.totalCost
        | none => acc.totalCost
      | none => acc.totalCost
    let md := match msg.model with
      | some m => if m ≠ "" then m else acc.model
      | none => acc.model
    let ls := match msg.stopReason with
      | some r => if r ≠ "" then (if r == "toolUse" then "running" else "completed")
                  else acc.lastStatus
      | none => acc.lastStatus
    { totalTokens := tt, totalCost := tc, model := md, lastStatus := ls }

/-- Embedding of the messagelines filter: events of type message carrying a
non-null message payload. -/
def messageLines (lines : List Event) : List Event :=
  lines.filter (fun l => l.type == some "message" && l.message.isSome)

/-- Fold of the message loop over the filtered message lines. -/
def msgFold (ms : List Event) : MsgAcc := ms.foldl msgStep initAcc

/-! ### Label resolution -/

/-- Optional label of the data payload of an event. -/
def optLabel (l : Event) : Option String := l.data.bind (fun d => d.label)

/-- Predicate of the spawnLine lookup: a custom event whose data payload has a
truthy (non-empty) label. -/
def spawnPred (l : Event) : Bool := l.type == some "custom" && truthyS (optLabel l)

/-- Text of the first content element of the message of an event, when the
whole optional chain is present. -/
def textOf (l : Event) : Option String :=
  ((l.message.bind (fun m => m.content)).bind (fun c => c.head?)).bind (fun ci => ci.text)

/-- Predicate of the taskLine lookup: a message event whose leading content
text mentions Your Task. -/
def taskPred (l : Event) : Bool :=
  l.type == some "message" &&
    (match textOf l with
     | some t => strContains t "Your Task"
     | none => false)

/-- First character class of the label-extraction regex: quote, double quote,
colon or whitespace. -/
def isClass1 (c : Char) : Bool :=
  c == '\'' || c == '"' || c == ':' || jsWsChar c

/-- Second (captured) character class of the regex: anything except quote,
double quote, closing brace or newline. -/
def isClass2 (c : Char) : Bool :=
  !(c == '\'' || c == '"' || c == '\x7d' || c == '\n')

/-- Case-insensitive match of a text character against a lowercase pattern
character (ASCII folding, as the regex i flag does for the word label). -/
def lowerMatches (c d : Char) : Bool :=
  c == d || (65 ≤ c.toNat && c.toNat ≤ 90 && c.toNat + 32 == d.toNat)

/-- Match a lowercase keyword case-insensitively at the head of the list. -/
def matchKeyword : List Char → List Char → Bool
  | _, [] => true
  | [], _ :: _ => false
  | c :: cs, d :: ds => lowerMatches c d && matchKeyword cs ds

/-- Backtracking step of the regex: the greedy class-one run is shortened from
n characters down to one until the capture (class two, at least one character)
can start right after it. -/
def tryLens (rest1 : List Char) : Nat → Option (List Char)
  | 0 => none
  | n + 1 =>
    match rest1.drop (n + 1) with
    | c :: cs => if isClass2 c then some ((c :: cs).takeWhile isClass2) else tryLens rest1 n
    | [] => tryLens rest1 n

/-- Attempt the regex match at the current position: the keyword label
case-insensitively, then one or more class-one characters (greedy with
backtracking), then the greedy nonempty class-two capture. -/
def tryMatchAt (cs : List Char) : Option (List Char) :=
  if matchKeyword cs ("label".data) then
    let rest1 := cs.drop 5
    tryLens rest1 ((rest1.takeWhile isClass1).length)
  else none

/-- Leftmost match of the label-extraction regex over the text. -/
def findLabelCapture : List Char → Option (List Char)
  | [] => none
  | c :: t =>
    match tryMatchAt (c :: t) with
    | some cap => some cap
    | none => findLabelCapture t

/-- Embedding of text.match(...) for the label regex, returning the first
capture group. -/
def extractLabelFromText (text : String) : Option String :=
  (findLabelCapture text.data).map (fun cap => String.mk cap)

/-- Label derived from a found taskLine: the trimmed regex capture of its
leading content text, defaulting to Sub-agent when the match fails. -/
def taskLabelOf (t : Event) : String :=
  match textOf t with
  | some tx =>
    match extractLabelFromText tx with
    | some cap => trimStr cap
    | none => "Sub-agent"
  | none => "Sub-agent"

/-- Fallback branch of label resolution when no labelled custom event exists:
sessions whose key mentions subagent try the task-text extraction and then
default to Sub-agent; all others default to Main. -/
def subFallback (key : String) (lines : List Event) : String :=
  if strContains key "subagent" then
    match lines.find? taskPred with
    | some t => taskLabelOf t
    | none => "Sub-agent"
  else "Main"

/-- Embedding of the label block of parseSessionFile. -/
def resolveLabel (key : String) (lines : List Event) : String :=
  match lines.find? spawnPred with
  | some sl =>
    match optLabel sl with
    | some s => if s ≠ "" then s else subFallback key lines
    | none => subFallback key lines
  | none => subFallback key lines

/-! ### Model override and status -/

/-- Predicate of the modelLine lookup: the secondary type tag equals
model-snapshot (the primary type is not inspected). -/
def snapPred (l : Event) : Bool := l.customType == some "model-snapshot"

/-- Embedding of the model-snapshot override: the first event matching
snapPred overrides the model when it carries a truthy modelId. -/
def applyModelOverride (lines : List Event) (model : String) : String :=
  match lines.find? snapPred with
  | some ml =>
    match ml.data.bind (fun d => d.modelId) with
    | some m => if m ≠ "" then m else model
    | none => model
  | none => model

/-! ### parseSessionFile -/

/-- Embedding of parseSessionFile.  The filename argument is the basename of
the path (the only part the logic inspects); mtimeMs and birthtimeMs stand for
the file metadata timestamps. -/
def parseSessionFile (filename : String) (lines : List Event)
    (mtimeMs birthtimeMs : Int) : Summary :=
  let sessionId := extractSessionId filename
  let isDeleted := strContains filename ".deleted"
  let sessionLine := lines.find? (fun l => l.type == some "session")
  let sessionKey :=
    match sessionLine with
    | some sl =>
      match sl.id with
      | some i => if i ≠ "" then "agent:main:" ++ i else sessionId
      | none => sessionId
    | none => sessionId
  let messagelines := messageLines lines
  let acc := msgFold messagelines
  let label := resolveLabel sessionKey lines
  let model := applyModelOverride lines acc.model
  let status :=
    if acc.totalTokens > 0 && !isDeleted then acc.lastStatus
    else if isDeleted then "archived"
    else "idle"
  { sessionId := sessionId
    sessionKey := sessionKey
    label := label
    model := model
    totalTokens := acc.totalTokens
    totalCost := acc.totalCost
    status := status
    messageCount := messagelines.length
    lastUpdated := mtimeMs
    createdAt := birthtimeMs
    filePath := filename
    isDeleted := isDeleted }

/-! ### File system model and routes

The log directory is modelled as a list of file entries.  The content field
is the outcome of reading and line-decoding the file: an error stands for a
file-level failure (unreadable file, unexpected structure), which in the
JavaScript surfaces as a thrown exception from parseSessionFile. -/

/-- Decidable equality for read outcomes, needed to evaluate concrete
directory scans. -/
instance : DecidableEq (Except String (List Event)) := fun
  | Except.ok a, Except.ok b =>
    if h : a = b then isTrue (by rw [h]) else isFalse (by simp [h])
  | Except.ok _, Except.error _ => isFalse (by simp)
  | Except.error _, Except.ok _ => isFalse (by simp)
  | Except.error a, Except.error b =>
    if h : a = b then isTrue (by rw [h]) else isFalse (by simp [h])

/-- One candidate file of the sessions directory. -/
structure FileEntry where
  name : String
  mtimeMs : Int
  birthtimeMs : Int
  content : Except String (List Event)
deriving DecidableEq

/-- Summarize one file entry: propagate a file-level read failure, otherwise
apply parseSessionFile to the decoded lines. -/
def parseEntry (f : FileEntry) : Except String Summary :=
  match f.content with
  | Except.ok lines =>
    Except.ok (parseSessionFile f.name lines f.mtimeMs f.birthtimeMs)
  | Except.error e => Except.error e

/-- Whether an Except result is a success. -/
def isOkB : Except String Summary → Bool
  | Except.ok _ => true
  | Except.error _ => false

/-- First filename filter of the list route: active logs always, archived
variants only when includeArchived is set. -/
def candFilterA (includeArchived : Bool) (f : FileEntry) : Bool :=
  strEndsWith f.name ".jsonl" || (includeArchived && strContains f.name ".jsonl.deleted")

/-- Second filename filter of the list route: exclude lock and plain json
files. -/
def candFilterB (f : FileEntry) : Bool :=
  !(strEndsWith f.name ".lock") && !(strEndsWith f.name ".json")

/-- Body of the scan loop of the list route: skip files older than the
cutoff, append the summary on success, and swallow (log) a per-file failure. -/
def scanStep (cutoff : Int) (acc : List Summary) (f : FileEntry) : List Summary :=
  if f.mtimeMs < cutoff then acc
  else
    match parseEntry f with
    | Except.ok s => acc ++ [s]
    | Except.error _ => acc

/-- Sort summaries descending by lastUpdated, as the JS comparator does. -/
def sortDesc (l : List Summary) : List Summary :=
  List.insertionSort (fun a b => b.lastUpdated ≤ a.lastUpdated) l

/-- Embedding of the GET list-sessions handler body (after parameter
handling): filter candidates, scan each with per-file failure isolation, and
sort the results. -/
def listSessions (files : List FileEntry) (includeArchived : Bool) (cutoff : Int) :
    List Summary :=
  let cands := (files.filter (candFilterA includeArchived)).filter candFilterB
  sortDesc (cands.foldl (scanStep cutoff) [])

/-! ### Query parameter handling (JS parseInt and defaulting) -/

/-- Decimal digit value of a character. -/
def digitVal (c : Char) : Option Nat :=
  if '0' ≤ c && c ≤ '9' then some (c.toNat - 48) else none

/-- Hexadecimal digit value of a character. -/
def hexVal (c : Char) : Option Nat :=
  if '0' ≤ c && c ≤ '9' then some (c.toNat - 48)
  else if 'a' ≤ c && c ≤ 'f' then some (c.toNat - 87)
  else if 'A' ≤ c && c ≤ 'F' then some (c.toNat - 55)
  else none

/-- Accumulate the value of a digit string in the given base. -/
def digitsValue (val : Char → Option Nat) (base : Nat) : List Char → Nat → Nat
  | [], acc => acc
  | c :: cs, acc =>
    match val c with
    | some d => digitsValue val base cs (acc * base + d)
    | none => acc

/-- Leading run of digit characters. -/
def takeDigits (val : Char → Option Nat) (cs : List Char) : List Char :=
  cs.takeWhile (fun c => (val c).isSome)

/-- Embedding of JS parseInt on a character list: skip leading whitespace,
read an optional sign, detect a 0x or 0X hexadecimal prefix, and parse the
leading digit run; none stands for NaN (no digits). -/
def jsParseIntChars (cs0 : List Char) : Option Int :=
  let cs1 := cs0.dropWhile jsWsChar
  let sc : Int × List Char :=
    match cs1 with
    | '-' :: t => (-1, t)
    | '+' :: t => (1, t)
    | _ => (1, cs1)
  let sign := sc.1
  let cs := sc.2
  match cs with
  | '0' :: x :: t =>
    if x == 'x' || x == 'X' then
      let ds := takeDigits hexVal t
      if ds.isEmpty then none
      else some (sign * (digitsValue hexVal 16 ds 0 : Int))
    else
      let ds := takeDigits digitVal ('0' :: x :: t)
      if ds.isEmpty then none
      else some (sign * (digitsValue digitVal 10 ds 0 : Int))
  | _ =>
    let ds := takeDigits digitVal cs
    if ds.isEmpty then none
    else some (sign * (digitsValue digitVal 10 ds 0 : Int))

/-- Embedding of JS parseInt applied to an optional query parameter: an
absent parameter (undefined) parses to NaN. -/
def jsParseInt : Option String → Option Int
  | none => none
  | some s => jsParseIntChars s.data

/-- Embedding of parseInt(req.query.activeMinutes) followed by the
or-1440 defaulting: NaN and zero are falsy, any other integer is kept. -/
def effectiveActiveMinutes (q : Option String) : Int :=
  match jsParseInt q with
  | some n => if n ≠ 0 then n else 1440
  | none => 1440

/-- Embedding of the includeArchived flag: every value except the literal
string false enables archived variants. -/
def includeArchivedOf (q : Option String) : Bool := !(q == some "false")

/-- Embedding of the whole GET list-sessions handler, parameters included:
the cutoff is now minus the effective window in milliseconds. -/
def listSessionsRoute (files : List FileEntry) (nowMs : Int)
    (activeMinutesQ includeArchivedQ : Option String) : List Summary :=
  let activeMinutes := effectiveActiveMinutes activeMinutesQ
  let cutoff := nowMs - activeMinutes * 60 * 1000
  listSessions files (includeArchivedOf includeArchivedQ) cutoff

/-! ### Get-one-session route -/

/-- Outcome of the get-session route: a summary, a distinct not-found
condition, or a generic server failure. -/
inductive ApiResult where
  | ok (s : Summary)
  | notFound
  | serverError (msg : String)
deriving DecidableEq

/-- Response produced from a resolved file: a summary on success, a generic
server error when parseSessionFile throws. -/
def summarizeResult (f : FileEntry) : ApiResult :=
  match parseEntry f with
  | Except.ok s => ApiResult.ok s
  | Except.error m => ApiResult.serverError m

/-- Name of the active log of a session identifier. -/
def activeName (sid : String) : String := sid ++ ".jsonl"

/-- Match of a file entry against the active log name. -/
def activePredFE (sid : String) (f : FileEntry) : Bool := f.name == activeName sid

/-- Match of a file entry against an archived variant name. -/
def archPredFE (sid : String) (f : FileEntry) : Bool :=
  strStartsWith f.name (sid ++ ".jsonl.deleted")

/-- Embedding of the GET one-session handler: resolve the active log first,
fall back to the first archived variant, and answer not-found only when
neither exists. -/
def getSession (files : List FileEntry) (sid : String) : ApiResult :=
  match files.find? (activePredFE sid) with
  | some f => summarizeResult f
  | none =>
    match files.find? (archPredFE sid) with
    | some f => summarizeResult f
    | none => ApiResult.notFound

/-! ### Per-event contribution functions

These read off, for a single event, the contribution the accumulation pass
adds to each running total, and the stop reason it observes; they phrase the
sums and the last-observed stop reason the way the specification does. -/

/-- Token contribution of one event: usage.totalTokens with absent fields
contributing zero. -/
def tokOf (l : Event) : Int :=
  match l.message with
  | some msg =>
    match msg.usage with
    | some u => u.totalTokens.getD 0
    | none => 0
  | none => 0

/-- Cost contribution of one event: usage.cost.total with absent fields
contributing zero. -/
def costOf (l : Event) : Rat :=
  match l.message with
  | some msg =>
    match msg.usage with
    | some u =>
      match u.cost with
      | some c => c.total.getD 0
      | none => 0
    | none => 0
  | none => 0

/-- Stop reason observed at one event: the truthy stopReason of its message,
when present. -/
def stopOf (l : Event) : Option String :=
  match l.message with
  | some msg =>
    match msg.stopReason with
    | some r => if r ≠ "" then some r else none
    | none => none
  | none => none

/-- Status derived from a stop reason: running for a tool invocation,
completed otherwise. -/
def statusFromStop (r : String) : String :=
  if r == "toolUse" then "running" else "completed"

/-- Last stop reason observed across the accumulation pass. -/
def lastStopReason (lines : List Event) : Option String :=
  ((messageLines lines).filterMap stopOf).getLast?

/-- Status of a non-archived session phrased as the specification does once
amended: idle when the accumulated token total is not positive, otherwise
derived from the last observed stop reason, defaulting to idle when no stop
reason was observed. -/
def statusSpecAmended (lines : List Event) : String :=
  if (msgFold (messageLines lines)).totalTokens > 0 then
    match lastStopReason lines with
    | some r => statusFromStop r
    | none => "idle"
  else "idle"

/-! ### Concrete fixtures used to evaluate the theorems on explicit inputs -/

/-- Message event whose usage is present but contributes zero tokens, with a
non-tool stop reason. -/
def evZeroUsage : Event :=
  { type := some "message", id := none
    message := some { usage := some { totalTokens := some 0, cost := none }
                      model := none, stopReason := some "stop", content := none }
    data := none, customType := none }

/-- Message event carrying a negative token count. -/
def evNegTokens : Event :=
  { type := some "message", id := none
    message := some { usage := some { totalTokens := some (-5), cost := none }
                      model := none, stopReason := none, content := none }
    data := none, customType := none }

/-- Message event carrying three tokens. -/
def evPosTokens : Event :=
  { type := some "message", id := none
    message := some { usage := some { totalTokens := some 3, cost := none }
                      model := none, stopReason := none, content := none }
    data := none, customType := none }

/-- Event tagged model-snapshot by its secondary type only, with no data
payload at all. -/
def snapBare : Event :=
  { type := none, id := none, message := none, data := none
    customType := some "model-snapshot" }

/-- Custom model-snapshot event carrying the model identifier m2. -/
def snapM2 : Event :=
  { type := some "custom", id := none, message := none
    data := some { label := none, modelId := some "m2" }
    customType := some "model-snapshot" }

/-- Event tagged model-snapshot whose primary type is not custom, carrying
the model identifier mx. -/
def snapWeird : Event :=
  { type := some "weird", id := none, message := none
    data := some { label := none, modelId := some "mx" }
    customType := some "model-snapshot" }

/-- Message event setting the model mm. -/
def evModelMsg : Event :=
  { type := some "message", id := none
    message := some { usage := none, model := some "mm", stopReason := none
                      content := none }
    data := none, customType := none }

/-- Session event whose id marks a delegated sub-task. -/
def sessEvSub : Event :=
  { type := some "session", id := some "subagent-7", message := none
    data := none, customType := none }

/-- Custom event carrying the explicit label Refactor. -/
def labelEv : Event :=
  { type := some "custom", id := none, message := none
    data := some { label := some "Refactor", modelId := none }
    customType := none }

/-- Readable, well-formed session file. -/
def goodFE : FileEntry :=
  { name := "aa.jsonl", mtimeMs := 10, birthtimeMs := 0, content := Except.ok [] }

/-- Corrupt session file whose read fails. -/
def badFE : FileEntry :=
  { name := "bb.jsonl", mtimeMs := 10, birthtimeMs := 0
    content := Except.error "boom" }

/-- Archived variant of the session ab. -/
def demoArchFE : FileEntry :=
  { name := "ab.jsonl.deleted.2026-01-01", mtimeMs := 0, birthtimeMs := 0
    content := Except.ok [] }

/-! ### Lemmas about the accumulation pass -/

theorem msgStep_totalTokens (acc : MsgAcc) (l : Event) :
    (msgStep acc l).totalTokens = acc.totalTokens + tokOf l := by
  unfold msgStep tokOf
  cases hm : l.message with
  | none => simp
  | some msg =>
    cases hu : msg.usage with
    | none => simp [hu]
    | some u => simp [hu]

theorem msgStep_totalCost (acc : MsgAcc) (l : Event) :
    (msgStep acc l).totalCost = acc.totalCost + costOf l := by
  unfold msgStep costOf
  cases hm : l.message with
  | none => simp
  | some msg =>
    cases hu : msg.usage with
    | none => simp [hu]
    | some u =>
      cases hc : u.cost with
      | none => simp [hu, hc]
      | some c =>
        cases ht : c.total with
        | none => simp [hu, hc, ht]
        | some v =>
          by_cases hv : v = 0
          · simp [hu, hc, ht, hv]
          · simp [hu, hc, ht, hv]

theorem msgStep_lastStatus (acc : MsgAcc) (l : Event) :
    (msgStep acc l).lastStatus =
      match stopOf l with
      | some r => statusFromStop r
      | none => acc.lastStatus := by
  unfold msgStep stopOf statusFromStop
  cases hm : l.message with
  | none => simp
  | some msg =>
    cases hs : msg.stopReason with
    | none => simp [hs]
    | some r =>
      by_cases hr : r = ""
      · simp [hs, hr]
      · simp [hs, hr]

theorem foldl_totalTokens (ms : List Event) (acc : MsgAcc) :
    (ms.foldl msgStep acc).totalTokens = acc.totalTokens + (ms.map tokOf).sum := by
  induction ms generalizing acc with
  | nil => simp
  | cons m t ih =>
    rw [List.foldl_cons, ih, msgStep_totalTokens]
    simp [add_assoc]

theorem foldl_totalCost (ms : List Event) (acc : MsgAcc) :
    (ms.foldl msgStep acc).totalCost = acc.totalCost + (ms.map costOf).sum := by
  induction ms generalizing acc with
  | nil => simp
  | cons m t ih =>
    rw [List.foldl_cons, ih, msgStep_totalCost]
    simp [add_assoc]

theorem foldl_lastStatus (ms : List Event) (acc : MsgAcc) :
    (ms.foldl msgStep acc).lastStatus =
      match (ms.filterMap stopOf).getLast? with
      | some r => statusFromStop r
      | none => acc.lastStatus := by
  induction ms using List.reverseRecOn with
  | nil => simp
  | append_singleton l m ih =>
    rw [List.foldl_append, List.foldl_cons, List.foldl_nil, msgStep_lastStatus,
      List.filterMap_append]
    cases hs : stopOf m with
    | none =>
      simp only [List.filterMap_cons, hs, List.filterMap_nil, List.append_nil]
      exact ih
    | some r =>
      simp only [List.filterMap_cons, hs, List.filterMap_nil, List.getLast?_concat]

theorem msgFold_totalTokens (ms : List Event) :
    (msgFold ms).totalTokens = (ms.map tokOf).sum := by
  unfold msgFold
  rw [foldl_totalTokens]
  simp [initAcc]

theorem msgFold_totalCost (ms : List Event) :
    (msgFold ms).totalCost = (ms.map costOf).sum := by
  unfold msgFold
  rw [foldl_totalCost]
  simp [initAcc]

theorem msgFold_lastStatus (ms : List Event) :
    (msgFold ms).lastStatus =
      match (ms.filterMap stopOf).getLast? with
      | some r => statusFromStop r
      | none => "idle" := by
  unfold msgFold
  rw [foldl_lastStatus]
  cases (ms.filterMap stopOf).getLast? with
  | none => rfl
  | some r => rfl

theorem msgFold_lastStatus_cases (ms : List Event) :
    (msgFold ms).lastStatus = "idle" ∨ (msgFold ms).lastStatus = "running" ∨
      (msgFold ms).lastStatus = "completed" := by
  rw [msgFold_lastStatus]
  cases (ms.filterMap stopOf).getLast? with
  | none => exact Or.inl rfl
  | some r =>
    unfold statusFromStop
    by_cases hr : r == "toolUse"
    · simp [hr]
    · simp [hr]

/-! ### Claim C3: totals are exact sums of present usage values -/

/-- C3: for every event sequence, totalTokens equals the sum of
usage.totalTokens over all message events carrying a non-null message payload
(absent token counts contributing 0), and totalCost equals the sum of
usage.cost.total over the same events (absent cost sub-fields contributing 0);
a usage object with partial sub-fields contributes only its present values. -/
theorem totals_are_sums (filename : String) (lines : List Event) (mt bt : Int) :
    (parseSessionFile filename lines mt bt).totalTokens =
      ((messageLines lines).map tokOf).sum ∧
    (parseSessionFile filename lines mt bt).totalCost =
      ((messageLines lines).map costOf).sum :=
  ⟨msgFold_totalTokens (messageLines lines), msgFold_totalCost (messageLines lines)⟩

/-! ### Claim C4: archived status is exactly the storage-name flag -/

/-- C4: for every session log, the summary status equals archived if and only
if the storage name contains the archival marker substring, regardless of the
token or message content of the log. -/
theorem archived_iff_flagged (filename : String) (lines : List Event) (mt bt : Int) :
    (parseSessionFile filename lines mt bt).status = "archived" ↔
      strContains filename ".deleted" = true := by
  have hst : (parseSessionFile filename lines mt bt).status =
      (if (msgFold (messageLines lines)).totalTokens > 0 &&
            !(strContains filename ".deleted") then
        (msgFold (messageLines lines)).lastStatus
      else if strContains filename ".deleted" then "archived" else "idle") := rfl
  rw [hst]
  cases hd : strContains filename ".deleted" with
  | true => simp
  | false =>
    simp only [Bool.not_false, Bool.and_true]
    by_cases ht : (msgFold (messageLines lines)).totalTokens > 0
    · rw [if_pos (by simp [ht])]
      rcases msgFold_lastStatus_cases (messageLines lines) with h | h | h <;> simp [h]
    · rw [if_neg (by simp [ht])]
      simp

/-- Witness for C4 at a concrete archived log that carries token activity. -/
theorem archived_iff_flagged_w :
    (parseSessionFile "ab.jsonl.deleted.2026-01-01" [evPosTokens] 0 0).status =
      "archived" :=
  (archived_iff_flagged "ab.jsonl.deleted.2026-01-01" [evPosTokens] 0 0).mpr
    (by decide)

/-! ### Claim C8: totals never negative, accumulation never decreases -/

/-- C8 counterexample: a log whose single message event carries a negative
usage.totalTokens yields a negative summary total, so the totals of the code
are not unconditionally non-negative. -/
theorem totals_nonneg_cex :
    (parseSessionFile "a.jsonl" [evNegTokens] 0 0).totalTokens = -5 ∧
    (parseSessionFile "a.jsonl" [evNegTokens] 0 0).totalTokens < 0 := by decide

/-- C8 amended: when every event of the log contributes non-negative token and
cost values, both summary totals are non-negative and the running totals of
the accumulation pass never decrease across any split of the pass. -/
theorem totals_nonneg_amended (filename : String) (lines : List Event) (mt bt : Int)
    (htok : ∀ l ∈ lines, 0 ≤ tokOf l) (hcost : ∀ l ∈ lines, 0 ≤ costOf l) :
    0 ≤ (parseSessionFile filename lines mt bt).totalTokens ∧
    0 ≤ (parseSessionFile filename lines mt bt).totalCost ∧
    (∀ ms₁ ms₂ : List Event, messageLines lines = ms₁ ++ ms₂ →
      (msgFold ms₁).totalTokens ≤ (msgFold (ms₁ ++ ms₂)).totalTokens ∧
      (msgFold ms₁).totalCost ≤ (msgFold (ms₁ ++ ms₂)).totalCost) := by
  have hmem : ∀ l ∈ messageLines lines, l ∈ lines := by
    intro l hl
    exact (List.mem_filter.mp hl).1
  refine ⟨?_, ?_, ?_⟩
  · rw [show (parseSessionFile filename lines mt bt).totalTokens =
        (msgFold (messageLines lines)).totalTokens from rfl, msgFold_totalTokens]
    refine List.sum_nonneg ?_
    intro x hx
    rcases List.mem_map.mp hx with ⟨l, hl, rfl⟩
    exact htok l (hmem l hl)
  · rw [show (parseSessionFile filename lines mt bt).totalCost =
        (msgFold (messageLines lines)).totalCost from rfl, msgFold_totalCost]
    refine List.sum_nonneg ?_
    intro x hx
    rcases List.mem_map.mp hx with ⟨l, hl, rfl⟩
    exact hcost l (hmem l hl)
  · intro ms₁ ms₂ hsplit
    have hmem₂ : ∀ l ∈ ms₂, l ∈ lines := by
      intro l hl
      exact hmem l (hsplit ▸ List.mem_append.mpr (Or.inr hl))
    constructor
    · rw [msgFold_totalTokens, msgFold_totalTokens, List.map_append, List.sum_append]
      refine le_add_of_nonneg_right (List.sum_nonneg ?_)
      intro x hx
      rcases List.mem_map.mp hx with ⟨l, hl, rfl⟩
      exact htok l (hmem₂ l hl)
    · rw [msgFold_totalCost, msgFold_totalCost, List.map_append, List.sum_append]
      refine le_add_of_nonneg_right (List.sum_nonneg ?_)
      intro x hx
      rcases List.mem_map.mp hx with ⟨l, hl, rfl⟩
      exact hcost l (hmem₂ l hl)

/-- Witness for the amended C8 at a concrete log with three tokens. -/
theorem totals_nonneg_amended_w :
    0 ≤ (parseSessionFile "a.jsonl" [evPosTokens] 0 0).totalTokens :=
  (totals_nonneg_amended "a.jsonl" [evPosTokens] 0 0 (by decide) (by decide)).1

/-! ### Claim C1: status of non-archived sessions -/

/-- C1 counterexample: a non-archived log holding one message event whose
usage field is present (with a zero token count) and whose last observed stop
reason is stop.  The claim requires a status derived from that stop reason
(completed), but the code keys the idle test on the accumulated token total
and yields idle. -/
theorem status_idle_cex :
    (parseSessionFile "a.jsonl" [evZeroUsage] 0 0).isDeleted = false ∧
    ((messageLines [evZeroUsage]).filter
        (fun l => (l.message.bind (fun m => m.usage)).isSome)) ≠ [] ∧
    lastStopReason [evZeroUsage] = some "stop" ∧
    statusFromStop "stop" = "completed" ∧
    (parseSessionFile "a.jsonl" [evZeroUsage] 0 0).status = "idle" := by decide

/-- C1 amended: for every non-archived session log, the status is idle exactly
when the accumulated token total is not positive (in particular when no
message event carries usage); otherwise it derives from the last observed
stop reason, running for toolUse, completed otherwise, defaulting to idle
when no stop reason was ever observed. -/
theorem status_nonarchived_amended (filename : String) (lines : List Event)
    (mt bt : Int) (h : strContains filename ".deleted" = false) :
    (parseSessionFile filename lines mt bt).status = statusSpecAmended lines := by
  have hst : (parseSessionFile filename lines mt bt).status =
      (if (msgFold (messageLines lines)).totalTokens > 0 &&
            !(strContains filename ".deleted") then
        (msgFold (messageLines lines)).lastStatus
      else if strContains filename ".deleted" then "archived" else "idle") := rfl
  rw [hst, h]
  simp only [Bool.not_false, Bool.and_true]
  unfold statusSpecAmended lastStopReason
  by_cases ht : (msgFold (messageLines lines)).totalTokens > 0
  · rw [if_pos (by simp [ht]), if_pos ht]
    exact msgFold_lastStatus (messageLines lines)
  · rw [if_neg (by simp [ht]), if_neg ht]
    simp

/-- Witness for the amended C1 at the concrete zero-usage log. -/
theorem status_nonarchived_amended_w :
    (parseSessionFile "a.jsonl" [evZeroUsage] 0 0).status =
      statusSpecAmended [evZeroUsage] :=
  status_nonarchived_amended "a.jsonl" [evZeroUsage] 0 0 (by decide)

/-! ### Claims C5 and C10: the model-snapshot override -/

theorem find?_first_middle {α : Type} (p : α → Bool) (l₁ : List α) (e : α)
    (l₂ : List α) (h₁ : ∀ x ∈ l₁, p x = false) (he : p e = true) :
    (l₁ ++ e :: l₂).find? p = some e := by
  induction l₁ with
  | nil => simp [List.find?_cons_of_pos, he]
  | cons a t ih =>
    have ha : p a = false := h₁ a (List.mem_cons_self a t)
    rw [List.cons_append, List.find?_cons_of_neg _ (by simp [ha])]
    exact ih (fun x hx => h₁ x (List.mem_cons_of_mem a hx))

/-- C5 counterexample: a log holding exactly one custom model-snapshot event
carrying the model identifier m2, preceded by a bare event whose secondary
tag is also model-snapshot.  The claim requires the summary model to be m2,
but the code keys the lookup on the secondary tag alone, finds the bare event
first, and applies no override. -/
theorem model_override_cex :
    snapM2 ∈ [snapBare, snapM2] ∧
    snapM2.type = some "custom" ∧
    snapM2.customType = some "model-snapshot" ∧
    snapM2.data.bind (fun d => d.modelId) = some "m2" ∧
    snapBare.type ≠ some "custom" ∧
    (parseSessionFile "a.jsonl" [snapBare, snapM2] 0 0).model = "unknown" ∧
    (parseSessionFile "a.jsonl" [snapBare, snapM2] 0 0).model ≠ "m2" := by decide

/-- C5 amended: when the first event whose secondary tag is model-snapshot
carries a non-empty modelId, that modelId is the summary model, overriding
any model set by message events regardless of their relative order. -/
theorem model_override_amended (filename : String) (lines : List Event)
    (mt bt : Int) (e : Event) (m : String)
    (hf : lines.find? snapPred = some e)
    (hm : e.data.bind (fun d => d.modelId) = some m) (hne : m ≠ "") :
    (parseSessionFile filename lines mt bt).model = m := by
  have hmodel : (parseSessionFile filename lines mt bt).model =
      applyModelOverride lines (msgFold (messageLines lines)).model := rfl
  rw [hmodel]
  unfold applyModelOverride
  rw [hf]
  simp [hm, hne]

/-- Witness for the amended C5: the snapshot event comes first, a message
event sets its own model later, and the snapshot still wins. -/
theorem model_override_amended_w :
    (parseSessionFile "a.jsonl" [snapM2, evModelMsg] 0 0).model = "m2" :=
  model_override_amended "a.jsonl" [snapM2, evModelMsg] 0 0 snapM2 "m2"
    (by decide) (by decide) (by decide)

/-- C10: the model override considers only the first event whose secondary
type tag equals model-snapshot, without requiring its primary type to be
custom; and when that first matching event lacks a modelId, no override is
applied even when a later model-snapshot event carries one. -/
theorem model_snapshot_first_tag (filename : String) (mt bt : Int) :
    (∀ (lines : List Event) (e : Event) (m : String),
      lines.find? snapPred = some e → e.type ≠ some "custom" →
      e.data.bind (fun d => d.modelId) = some m → m ≠ "" →
      (parseSessionFile filename lines mt bt).model = m) ∧
    (∀ (l₁ l₂ : List Event) (e e₂ : Event) (m₂ : String),
      (∀ x ∈ l₁, snapPred x = false) → snapPred e = true →
      e.data.bind (fun d => d.modelId) = none →
      e₂ ∈ l₂ → snapPred e₂ = true →
      e₂.data.bind (fun d => d.modelId) = some m₂ →
      (parseSessionFile filename (l₁ ++ e :: l₂) mt bt).model =
        (msgFold (messageLines (l₁ ++ e :: l₂))).model) := by
  constructor
  · intro lines e m hf _ hm hne
    have hmodel : (parseSessionFile filename lines mt bt).model =
        applyModelOverride lines (msgFold (messageLines lines)).model := rfl
    rw [hmodel]
    unfold applyModelOverride
    rw [hf]
    simp [hm, hne]
  · intro l₁ l₂ e e₂ m₂ h₁ he hnone _ _ _
    have hmodel : (parseSessionFile filename (l₁ ++ e :: l₂) mt bt).model =
        applyModelOverride (l₁ ++ e :: l₂)
          (msgFold (messageLines (l₁ ++ e :: l₂))).model := rfl
    rw [hmodel]
    unfold applyModelOverride
    rw [find?_first_middle snapPred l₁ e l₂ h₁ he]
    simp [hnone]

/-- Witness for C10: an event of primary type weird whose secondary tag is
model-snapshot still drives the override. -/
theorem model_snapshot_first_tag_w :
    (parseSessionFile "a.jsonl" [snapWeird] 0 0).model = "mx" :=
  (model_snapshot_first_tag "a.jsonl" 0 0).1 [snapWeird] snapWeird "mx"
    (by decide) (by decide) (by decide) (by decide)

/-! ### Claim C6: label priority -/

/-- C6: the explicit label of the first custom event with a non-empty
data.label always wins, also for sub-agent-keyed sessions; absent such an
event, a session whose key contains the sub-agent marker falls back to the
task-text extraction and then to Sub-agent, and every other session defaults
to Main. -/
theorem label_priority (filename : String) (lines : List Event) (mt bt : Int) :
    (∀ e : Event, lines.find? spawnPred = some e →
      strContains (parseSessionFile filename lines mt bt).sessionKey "subagent" = true →
      (parseSessionFile filename lines mt bt).label = (optLabel e).getD "") ∧
    (lines.find? spawnPred = none →
      strContains (parseSessionFile filename lines mt bt).sessionKey "subagent" = true →
      lines.find? taskPred = none →
      (parseSessionFile filename lines mt bt).label = "Sub-agent") ∧
    (∀ t : Event, lines.find? spawnPred = none →
      strContains (parseSessionFile filename lines mt bt).sessionKey "subagent" = true →
      lines.find? taskPred = some t →
      (parseSessionFile filename lines mt bt).label = taskLabelOf t) ∧
    (lines.find? spawnPred = none →
      strContains (parseSessionFile filename lines mt bt).sessionKey "subagent" = false →
      (parseSessionFile filename lines mt bt).label = "Main") := by
  set key := (parseSessionFile filename lines mt bt).sessionKey with hkey
  have hlab : (parseSessionFile filename lines mt bt).label =
      resolveLabel key lines := rfl
  refine ⟨?_, ?_, ?_, ?_⟩
  · intro e hf hsub
    rw [hlab]
    unfold resolveLabel
    rw [hf]
    have hp : spawnPred e = true := List.find?_some hf
    unfold spawnPred at hp
    rw [Bool.and_eq_true] at hp
    have htr : truthyS (optLabel e) = true := hp.2
    cases hl : optLabel e with
    | none => rw [hl] at htr; simp [truthyS] at htr
    | some s =>
      rw [hl] at htr
      unfold truthyS at htr
      have hs : s ≠ "" := by
        intro hcontra
        rw [hcontra] at htr
        simp at htr
      simp [hl, hs]
  · intro hf hsub htask
    rw [hlab]
    unfold resolveLabel
    rw [hf]
    unfold subFallback
    rw [if_pos hsub, htask]
  · intro t hf hsub htask
    rw [hlab]
    unfold resolveLabel
    rw [hf]
    unfold subFallback
    rw [if_pos hsub, htask]
  · intro hf hsub
    rw [hlab]
    unfold resolveLabel
    rw [hf]
    unfold subFallback
    rw [if_neg (by simp [hsub])]

/-- Witness for C6: a session keyed as a sub-agent that also carries an
explicit label event gets the explicit label. -/
theorem label_priority_w :
    (parseSessionFile "a.jsonl" [sessEvSub, labelEv] 0 0).label = "Refactor" :=
  (label_priority "a.jsonl" [sessEvSub, labelEv] 0 0).1 labelEv
    (by decide) (by decide)

/-! ### Claim C7: get-session resolution order -/

/-- C7: the get-session operation summarizes the active log when present,
falls back to the first archived variant otherwise, and answers the distinct
not-found condition exactly when neither exists. -/
theorem get_session_resolution (files : List FileEntry) (sid : String) :
    (getSession files sid = ApiResult.notFound ↔
      (files.find? (activePredFE sid) = none ∧
       files.find? (archPredFE sid) = none)) ∧
    (∀ f, files.find? (activePredFE sid) = some f →
      getSession files sid = summarizeResult f) ∧
    (∀ f, files.find? (activePredFE sid) = none →
      files.find? (archPredFE sid) = some f →
      getSession files sid = summarizeResult f) := by
  have hne : ∀ f : FileEntry, summarizeResult f ≠ ApiResult.notFound := by
    intro f h
    unfold summarizeResult at h
    cases hp : parseEntry f <;> rw [hp] at h <;> simp at h
  refine ⟨?_, ?_, ?_⟩
  · unfold getSession
    cases ha : files.find? (activePredFE sid) with
    | some f => simp [hne f]
    | none =>
      cases hb : files.find? (archPredFE sid) with
      | some f => simp [hne f]
      | none => simp
  · intro f ha
    unfold getSession
    rw [ha]
  · intro f ha hb
    unfold getSession
    rw [ha, hb]

/-- Witness for C7: a session with no active log but one archived variant is
resolved to that variant, not to not-found. -/
theorem get_session_resolution_w :
    getSession [demoArchFE] "ab" = summarizeResult demoArchFE :=
  (get_session_resolution [demoArchFE] "ab").2.2 demoArchFE (by decide) (by decide)

/-! ### Claim C2: per-file failure isolation of the directory scan -/

theorem sortDesc_length (l : List Summary) : (sortDesc l).length = l.length :=
  (List.perm_insertionSort _ l).length_eq

theorem countP_congr_on {α : Type} (p q : α → Bool) :
    ∀ l : List α, (∀ a ∈ l, p a = q a) → l.countP p = l.countP q := by
  intro l
  induction l with
  | nil => intro _; rfl
  | cons a t ih =>
    intro h
    rw [List.countP_cons, List.countP_cons, h a (List.mem_cons_self a t),
      ih (fun x hx => h x (List.mem_cons_of_mem a hx))]

theorem countP_add_not {α : Type} (p : α → Bool) :
    ∀ l : List α, l.countP p + l.countP (fun a => !p a) = l.length := by
  intro l
  induction l with
  | nil => rfl
  | cons a t ih =>
    rw [List.countP_cons, List.countP_cons]
    cases hp : p a <;> simp [hp] <;> omega

theorem foldl_scanStep_length (cutoff : Int) (fs : List FileEntry) :
    ∀ acc : List Summary, (fs.foldl (scanStep cutoff) acc).length =
      acc.length +
        fs.countP (fun f => !decide (f.mtimeMs < cutoff) && isOkB (parseEntry f)) := by
  induction fs with
  | nil => intro acc; simp
  | cons f t ih =>
    intro acc
    rw [List.foldl_cons, ih, List.countP_cons]
    unfold scanStep
    by_cases hm : f.mtimeMs < cutoff
    · rw [if_pos hm]
      simp [hm]
    · rw [if_neg hm]
      cases hp : parseEntry f with
      | ok s => simp [hm, isOkB]; omega
      | error e => simp [hm, isOkB]

/-- C2: a directory whose candidate files are all recent enough and hold
exactly one corrupt file among N plus one files yields exactly N summaries:
the per-file failure excludes only that file and never aborts the scan. -/
theorem scanner_isolation (files : List FileEntry) (ia : Bool) (cutoff : Int)
    (N : Nat)
    (hcand : ∀ f ∈ files, candFilterA ia f = true ∧ candFilterB f = true)
    (hrecent : ∀ f ∈ files, ¬ f.mtimeMs < cutoff)
    (hbad : files.countP (fun f => !isOkB (parseEntry f)) = 1)
    (hN : files.length = N + 1) :
    (listSessions files ia cutoff).length = N := by
  unfold listSessions
  have hfa : files.filter (candFilterA ia) = files :=
    List.filter_eq_self.mpr (fun a ha => (hcand a ha).1)
  rw [hfa]
  have hfb : files.filter candFilterB = files :=
    List.filter_eq_self.mpr (fun a ha => (hcand a ha).2)
  rw [hfb, sortDesc_length, foldl_scanStep_length]
  simp only [List.length_nil, Nat.zero_add]
  have hc : files.countP
        (fun f => !decide (f.mtimeMs < cutoff) && isOkB (parseEntry f)) =
      files.countP (fun f => isOkB (parseEntry f)) := by
    apply countP_congr_on
    intro a ha
    simp [hrecent a ha]
  rw [hc]
  have hsum := countP_add_not (fun f => isOkB (parseEntry f)) files
  omega

/-- Witness for C2 at a concrete directory with one readable and one corrupt
file. -/
theorem scanner_isolation_w : (listSessions [goodFE, badFE] true 0).length = 1 :=
  scanner_isolation [goodFE, badFE] true 0 1 (by decide) (by decide)
    (by decide) (by decide)

/-! ### Claim C9: recency-window parameter defaulting -/

/-- C9: a recency-window query parameter equal to the string 0, or any string
that does not parse as an integer, behaves exactly like an absent parameter:
the window falls back to the 1440-minute default. -/
theorem active_minutes_default (files : List FileEntry) (nowMs : Int)
    (iaq : Option String) (s : String)
    (h : jsParseInt (some s) = none ∨ jsParseInt (some s) = some 0) :
    listSessionsRoute files nowMs (some s) iaq =
      listSessionsRoute files nowMs none iaq ∧
    effectiveActiveMinutes (some s) = 1440 := by
  have he : effectiveActiveMinutes (some s) = 1440 := by
    unfold effectiveActiveMinutes
    rcases h with h | h
    · rw [h]
    · rw [h]
      simp
  refine ⟨?_, he⟩
  unfold listSessionsRoute
  rw [he]
  rfl

/-- Witness for C9 at the concrete non-numeric parameter xyz. -/
theorem active_minutes_default_w : effectiveActiveMinutes (some "xyz") = 1440 :=
  (active_minutes_default [] 0 none "xyz" (Or.inl (by decide))).2

end Dashboard
